import Mathlib

/-!
Verification of the core budgeting logic of the centsy application: the
week-bucketing date resolver, the budget aggregator and weekly cash-flow
projector, the recurring-due-date resolver of the bill-reminder job, the
bulk-paste bill-text parser, the budget-update normalizer, and the local
command classifier of the chat copilot.

Numbers are modelled as rationals (the source computes with JS numbers on
small decimal inputs; decimal literals such as 1200.00 are taken at their
exact value).  Strings are modelled as Lean strings; character classes of
the JS regexes are modelled over their ASCII content, and lowercasing is
per-character ASCII lowercasing.
-/

namespace Centsy

/-- Whitespace class used to model the JS `\s` class and `String.trim`
on the ASCII characters that occur in practice. -/
def jsWs (c : Char) : Bool :=
  c = ' ' || c = '\t' || c = '\n' || c = '\r' || c = '\x0b' || c = '\x0c'

/-- Word character, modelling the JS `\w` class `[A-Za-z0-9_]` used by
word boundaries `\b`. -/
def isWordChar (c : Char) : Bool :=
  (('a' ≤ c && c ≤ 'z') || ('A' ≤ c && c ≤ 'Z') || c.isDigit || c = '_')

/-- ASCII lowercasing of a string, modelling JS `toLowerCase` on the
ASCII strings the application manipulates. -/
def lowerStr (s : String) : String := String.mk (s.toList.map Char.toLower)

/-- Numeric value of a decimal digit character. -/
def digitVal (c : Char) : ℕ := c.toNat - '0'.toNat

/-- Value of a run of decimal digits, most significant first. -/
def digitsToNat (l : List Char) : ℕ := l.foldl (fun acc c => 10 * acc + digitVal c) 0

/-- Trim of leading and trailing whitespace, modelling JS `trim`. -/
def trimChars (l : List Char) : List Char :=
  ((l.dropWhile jsWs).reverse.dropWhile jsWs).reverse

/-- Substring test, modelling JS `String.includes`. -/
def hasSubstr (p : List Char) : List Char → Bool
  | [] => p.isEmpty
  | c :: t => p.isPrefixOf (c :: t) || hasSubstr p t

/-- First run of one or two digits in a label, modelling the first match
of the JS regex `(\d{1,2})` converted with `Number`. -/
def firstOneTwoDigits : List Char → Option ℕ
  | [] => none
  | c :: t =>
    if c.isDigit then
      match t with
      | d :: _ => if d.isDigit then some (10 * digitVal c + digitVal d) else some (digitVal c)
      | [] => some (digitVal c)
    else firstOneTwoDigits t

/-- Attempted match of the pattern `week\s*(\d+)` (case-insensitive) at
the head of the character list, returning the captured number. -/
def tryWeekAt (l : List Char) : Option ℕ :=
  match l with
  | w :: e1 :: e2 :: k :: rest =>
    if w.toLower = 'w' && e1.toLower = 'e' && e2.toLower = 'e' && k.toLower = 'k' then
      let ds := (rest.dropWhile jsWs).takeWhile Char.isDigit
      if ds.isEmpty then none else some (digitsToNat ds)
    else none
  | _ => none

/-- First match of the JS regex `/week\s*(\d+)/i` in a label: the match
is attempted at every position from the left, as a regex engine does. -/
def weekMatchNum : List Char → Option ℕ
  | [] => none
  | c :: t =>
    match tryWeekAt (c :: t) with
    | some n => some n
    | none => weekMatchNum t

/-- Gregorian leap-year test, as used by the JS `Date` calendar. -/
def isLeapYear (y : ℕ) : Bool := (y % 4 = 0 && y % 100 ≠ 0) || y % 400 = 0

/-- Number of days of a month given as 1..12, Gregorian calendar. -/
def daysInMonth1 (y m : ℕ) : ℕ :=
  if m = 2 then (if isLeapYear y then 29 else 28)
  else if m = 4 || m = 6 || m = 9 || m = 11 then 30
  else 31

/-- Day-of-month of a strict `YYYY-MM-DD` label.  Models the source
sequence: the label is tested against `^\d{4}-\d{2}-\d{2}$`, parsed with
`new Date`, and the day is used only when the date is valid (JS yields an
Invalid Date on out-of-range components).  The day is read in UTC; the
application is modelled in a UTC environment. -/
def isoDayOf (s : String) : Option ℕ :=
  match s.toList with
  | [y1, y2, y3, y4, h1, m1, m2, h2, d1, d2] =>
    if y1.isDigit && y2.isDigit && y3.isDigit && y4.isDigit && h1 = '-' &&
        m1.isDigit && m2.isDigit && h2 = '-' && d1.isDigit && d2.isDigit then
      let y := digitsToNat [y1, y2, y3, y4]
      let m := 10 * digitVal m1 + digitVal m2
      let d := 10 * digitVal d1 + digitVal d2
      if 1 ≤ m && m ≤ 12 && 1 ≤ d && d ≤ daysInMonth1 y m then some d else none
    else none
  | _ => none

/-- Week bucket of a date label alone, the fallback chain of
`billWeekIndex` after the recurring-day branch: ISO date, then a
`week N` phrase, then the first one-or-two-digit number, then week 1. -/
def billWeekIndexLabel (dateLabel : String) : ℕ :=
  match isoDayOf dateLabel with
  | some day =>
    if day ≤ 7 then 1 else if day ≤ 14 then 2 else if day ≤ 21 then 3 else 4
  | none =>
    match weekMatchNum dateLabel.toList with
    | some w =>
      -- the source computes Math.min(4, Math.max(1, Number(digits))); the
      -- NaN test after it can never fire on a digit capture
      min 4 (max 1 w)
    | none =>
      match firstOneTwoDigits dateLabel.toList with
      | some day =>
        if day ≤ 7 then 1 else if day ≤ 14 then 2 else if day ≤ 21 then 3 else 4
      | none => 1

/-- Week bucket of a bill, from `billWeekIndex` in the source.  The
recurring day is used only when it is present and truthy (a recurring day
of 0 is falsy in JS and falls through to the label chain; NaN is both
falsy and excluded by the explicit NaN test). -/
def billWeekIndex (dateLabel : String) (recurringDay : Option ℚ) : ℕ :=
  match recurringDay with
  | some d =>
    if d ≠ 0 then
      let day := min 31 (max 1 d)
      if day ≤ 7 then 1 else if day ≤ 14 then 2 else if day ≤ 21 then 3 else 4
    else billWeekIndexLabel dateLabel
  | none => billWeekIndexLabel dateLabel

/-- Calendar date in UTC, with the month 0-based as in the JS `Date`
API.  A reference instant is represented by its UTC calendar date; the
source strips the time of day with `startOfUtcDay` before comparing. -/
structure UtcDate where
  year : ℤ
  month : ℤ
  day : ℤ
  deriving DecidableEq, Repr

/-- Days of a month given 0-based, as computed by the source with
`new Date(Date.UTC(year, month + 1, 0)).getUTCDate()` for months 0..11. -/
def daysInMonth0 (y m : ℤ) : ℤ :=
  if m = 1 then (if isLeapYear y.toNat then 29 else 28)
  else if m = 3 || m = 5 || m = 8 || m = 10 then 30
  else 31

/-- Resolver of the next occurrence of a monthly recurring day, from
`nextRecurringDate` in the bill-reminders function: the recurring day is
clamped to 1..31, then to the last day of the reference month; if that
date is strictly before the reference day the same computation is done in
the following month.  The JS `%` and `Math.floor` division act on the
nonnegative `month + 1`, where they agree with `emod` and `ediv`. -/
def nextRecurringDate (recurringDay : ℤ) (reference : UtcDate) : UtcDate :=
  let safeDay := min 31 (max 1 recurringDay)
  let day := min safeDay (daysInMonth0 reference.year reference.month)
  if day < reference.day then
    let nextMonth := reference.month + 1
    let nextYear := reference.year + nextMonth / 12
    let resolvedMonth := nextMonth % 12
    let nextDay := min safeDay (daysInMonth0 nextYear resolvedMonth)
    ⟨nextYear, resolvedMonth, nextDay⟩
  else ⟨reference.year, reference.month, day⟩

/-- Month following a given one, written as the calendar rule the spec
describes (December rolls into January of the next year). -/
def followingMonth (y m : ℤ) : ℤ × ℤ :=
  if m = 11 then (y + 1, 0) else (y, m + 1)

/-- Budget category, a monthly planned/actual spend bucket. -/
structure BudgetCategory where
  name : String
  planned : ℚ
  actual : ℚ
  deriving DecidableEq, Repr

/-- Progress-tracked savings or debt goal. -/
structure BudgetGoal where
  name : String
  amount : ℚ
  target : ℚ
  deriving DecidableEq, Repr

/-- Scheduled obligation; `recurringDay` marks a monthly recurrence. -/
structure BudgetBill where
  name : String
  date : String
  amount : ℚ
  recurringDay : Option ℚ
  deriving DecidableEq, Repr

/-- Portfolio line of the investment projection. -/
structure Stock where
  symbol : String
  shares : ℚ
  price : ℚ
  monthly : ℚ
  deriving DecidableEq, Repr

/-- Aggregate budget document of one user, mirroring the `BudgetState`
type of the source. -/
structure BudgetState where
  incomePerPaycheck : ℚ
  partnerIncome : ℚ
  payFrequency : String
  primaryGoal : String
  autoSuggest : Bool
  includePartner : Bool
  monthlyBuffer : ℚ
  notificationWeeklySummary : Bool
  notificationOverBudget : Bool
  notificationBillReminders : Bool
  notificationReminderDays : ℚ
  autoSaveEnabled : Bool
  budgetGenerated : Bool
  budgetCategories : List BudgetCategory
  budgetGoals : List BudgetGoal
  budgetBills : List BudgetBill
  labels : List String
  scheduleBias : ℤ
  debtStrategy : String
  stocks : List Stock
  robinhoodConnected : Bool
  monthlyInvestment : ℚ
  expectedReturn : ℚ
  deriving DecidableEq, Repr

/-- Seed categories of the application. -/
def categoriesSeed : List BudgetCategory :=
  [⟨"Rent", 1200, 1200⟩, ⟨"Groceries", 420, 368⟩, ⟨"Transportation", 220, 245⟩,
   ⟨"Utilities", 160, 142⟩, ⟨"Fun money", 180, 126⟩, ⟨"Savings", 400, 400⟩]

/-- Seed goals of the application. -/
def goalsSeed : List BudgetGoal :=
  [⟨"Emergency fund", 3250, 5000⟩, ⟨"Travel fund", 820, 2000⟩, ⟨"Debt payoff", 6480, 9200⟩]

/-- Seed bills of the application. -/
def billsSeed : List BudgetBill :=
  [⟨"Rent", "Mar 1", 1200, none⟩, ⟨"Phone", "Mar 5", 80, none⟩,
   ⟨"Car insurance", "Mar 12", 165, none⟩, ⟨"Streaming bundle", "Mar 19", 24, none⟩]

/-- Pay-cadence multiplier: 4 for weekly, 1 for monthly, 2 otherwise. -/
def multiplier (st : BudgetState) : ℚ :=
  if st.payFrequency = "weekly" then 4 else if st.payFrequency = "monthly" then 1 else 2

/-- Monthly income from paycheck, cadence and optional partner income. -/
def monthlyIncome (st : BudgetState) : ℚ :=
  st.incomePerPaycheck * multiplier st + (if st.includePartner then st.partnerIncome else 0)

/-- Lowercased bill names, the `billNames` set of the source. -/
def billNames (st : BudgetState) : List String :=
  st.budgetBills.map (fun bill => lowerStr bill.name)

/-- Total of all bill amounts. -/
def plannedBillsTotal (st : BudgetState) : ℚ :=
  st.budgetBills.foldl (fun sum bill => sum + bill.amount) 0

/-- Total of category planned values, skipping any category whose
lowercased name equals a lowercased bill name. -/
def plannedCategoryTotal (st : BudgetState) : ℚ :=
  st.budgetCategories.foldl
    (fun sum category =>
      if (billNames st).contains (lowerStr category.name) then sum
      else sum + category.planned) 0

/-- Buffer floored at zero, the `safetyBuffer` of the source. -/
def safetyBuffer (st : BudgetState) : ℚ := max 0 st.monthlyBuffer

/-- Monthly residual left to budget. -/
def leftToBudget (st : BudgetState) : ℚ :=
  monthlyIncome st - plannedBillsTotal st - plannedCategoryTotal st -
    st.monthlyInvestment - safetyBuffer st

/-- Fixed weekly weight vector of the cash-flow projector. -/
def weeklyBaseWeights : List ℚ := [0.3, 0.25, 0.28, 0.17]

/-- Bias-rotated weekly weights.  The JS `%` is the truncating remainder
`Int.tmod`; an out-of-range index reads the default 0 where JS would give
undefined, which no claim exercises (the bias is 0..3). -/
def weeklyWeights (scheduleBias : ℤ) : List ℚ :=
  (List.range weeklyBaseWeights.length).map
    (fun index =>
      weeklyBaseWeights.getD
        (((index : ℤ) - scheduleBias + weeklyBaseWeights.length).tmod
          weeklyBaseWeights.length).toNat 0)

/-- Reducer step of the per-week bill totals: the bill adds its amount
to the bucket of its week, mirroring the in-place index update of the
source. -/
def weekTotalsStep (totals : List ℚ) (bill : BudgetBill) : List ℚ :=
  let weekIndex := billWeekIndex bill.date bill.recurringDay - 1
  totals.set weekIndex (totals.getD weekIndex 0 + bill.amount)

/-- Per-week bill totals, the `reduce` over `[0, 0, 0, 0]`. -/
def weeklyBillTotals (st : BudgetState) : List ℚ :=
  st.budgetBills.foldl weekTotalsStep [0, 0, 0, 0]

/-- Flat weekly amortization of the category total. -/
def weeklyCategorySpend (st : BudgetState) : ℚ :=
  plannedCategoryTotal st / (weeklyBaseWeights.length : ℚ)

/-- Flat weekly amortization of the monthly investment. -/
def weeklyInvestment (st : BudgetState) : ℚ :=
  st.monthlyInvestment / (weeklyBaseWeights.length : ℚ)

/-- Flat weekly amortization of the safety buffer. -/
def weeklyBuffer (st : BudgetState) : ℚ :=
  safetyBuffer st / (weeklyBaseWeights.length : ℚ)

/-- Projected signed weekly balances: income share by rotated weight,
minus flat category/investment/buffer shares, minus the bills due that
week.  The source maps over the weights with the running index used to
read the per-week bill totals. -/
def weeklyAmounts (st : BudgetState) : List ℚ :=
  (List.range (weeklyWeights st.scheduleBias).length).map
    (fun index =>
      monthlyIncome st * (weeklyWeights st.scheduleBias).getD index 0 -
        weeklyCategorySpend st - weeklyInvestment st - weeklyBuffer st -
        (weeklyBillTotals st).getD index 0)

/-- Total amount of the bills bucketed into a given week. -/
def weekBucket (bills : List BudgetBill) (w : ℕ) : ℚ :=
  ((bills.filter fun b => billWeekIndex b.date b.recurringDay == w).map (fun b => b.amount)).sum

/-- Initial in-memory state of the application, from the `useState`
defaults of the source. -/
def initialState : BudgetState where
  incomePerPaycheck := 2100
  partnerIncome := 0
  payFrequency := "biweekly"
  primaryGoal := "stability"
  autoSuggest := true
  includePartner := false
  monthlyBuffer := 150
  notificationWeeklySummary := true
  notificationOverBudget := true
  notificationBillReminders := true
  notificationReminderDays := 3
  autoSaveEnabled := true
  budgetGenerated := false
  budgetCategories := categoriesSeed
  budgetGoals := goalsSeed
  budgetBills := billsSeed
  labels := ["Essential", "Lifestyle", "Savings"]
  scheduleBias := 0
  debtStrategy := "avalanche"
  stocks := []
  robinhoodConnected := false
  monthlyInvestment := 200
  expectedReturn := 7

/-- Incoming category item of a patch; `planned` and `actual` may be
missing and are coerced with the `?? 0` fallback of the source. -/
structure CategoryPatch where
  name : String
  planned : Option ℚ
  actual : Option ℚ
  deriving DecidableEq, Repr

/-- Incoming goal item of a patch. -/
structure GoalPatch where
  name : String
  amount : Option ℚ
  target : Option ℚ
  deriving DecidableEq, Repr

/-- Incoming bill item of a patch; a missing or null `recurringDay` is
`none`, and a missing `date` is the empty string. -/
structure BillPatch where
  name : String
  date : String
  amount : Option ℚ
  recurringDay : Option ℚ
  deriving DecidableEq, Repr

/-- Incoming stock item of a patch. -/
structure StockPatch where
  symbol : String
  shares : Option ℚ
  price : Option ℚ
  monthly : Option ℚ
  deriving DecidableEq, Repr

/-- Partial budget state supplied by an external actor; `none` models an
absent (or undefined) field of the JS patch object. -/
structure BudgetUpdates where
  incomePerPaycheck : Option ℚ := none
  partnerIncome : Option ℚ := none
  payFrequency : Option String := none
  primaryGoal : Option String := none
  autoSuggest : Option Bool := none
  includePartner : Option Bool := none
  monthlyBuffer : Option ℚ := none
  notificationWeeklySummary : Option Bool := none
  notificationOverBudget : Option Bool := none
  notificationBillReminders : Option Bool := none
  notificationReminderDays : Option ℚ := none
  autoSaveEnabled : Option Bool := none
  budgetGenerated : Option Bool := none
  budgetCategories : Option (List CategoryPatch) := none
  budgetGoals : Option (List GoalPatch) := none
  budgetBills : Option (List BillPatch) := none
  labels : Option (List String) := none
  scheduleBias : Option ℤ := none
  debtStrategy : Option String := none
  stocks : Option (List StockPatch) := none
  robinhoodConnected : Option Bool := none
  monthlyInvestment : Option ℚ := none
  expectedReturn : Option ℚ := none
  deriving DecidableEq, Repr

/-- Normalization of incoming categories: numeric coercion with 0
fallback. -/
def normalizeCategories (items : List CategoryPatch) : List BudgetCategory :=
  items.map fun item => ⟨item.name, item.planned.getD 0, item.actual.getD 0⟩

/-- Normalization of incoming goals. -/
def normalizeGoals (items : List GoalPatch) : List BudgetGoal :=
  items.map fun item => ⟨item.name, item.amount.getD 0, item.target.getD 0⟩

/-- Normalization of incoming bills: an empty or all-whitespace date
becomes the literal `Unscheduled`; a present recurring day is kept, an
absent or null one stays cleared. -/
def normalizeBills (items : List BillPatch) : List BudgetBill :=
  items.map fun item =>
    ⟨item.name,
     if trimChars item.date.toList ≠ [] then item.date else "Unscheduled",
     item.amount.getD 0,
     item.recurringDay⟩

/-- Normalization of incoming stocks. -/
def normalizeStocks (items : List StockPatch) : List Stock :=
  items.map fun item => ⟨item.symbol, item.shares.getD 0, item.price.getD 0, item.monthly.getD 0⟩

/-- Synthesis of categories for orphaned bills, from
`mergeCategoriesWithBills`: every bill with a truthy (nonempty) name and
no case-insensitively matching category gets `planned = amount, actual =
0` appended. -/
def mergeCategoriesWithBills (categories : List BudgetCategory) (bills : List BudgetBill) :
    List BudgetCategory :=
  let existing := categories.map fun category => lowerStr category.name
  let additions :=
    (bills.filter fun bill => bill.name ≠ "" && !(existing.contains (lowerStr bill.name))).map
      fun bill => (⟨bill.name, bill.amount, 0⟩ : BudgetCategory)
  if additions.length ≠ 0 then categories ++ additions else categories

/-- Application of a partial budget patch to the canonical state, from
`applyBudgetUpdates`.  The source updates each field through its own
React setter; the setters touch disjoint fields, so the sequence is
modelled as a single record construction.  String-valued scalar fields
are updated only when truthy (nonempty). -/
def applyBudgetUpdates (st : BudgetState) (updates : BudgetUpdates) : BudgetState :=
  let nextCategories := updates.budgetCategories.map normalizeCategories
  let nextBills := updates.budgetBills.map normalizeBills
  { incomePerPaycheck := updates.incomePerPaycheck.getD st.incomePerPaycheck
    partnerIncome := updates.partnerIncome.getD st.partnerIncome
    payFrequency :=
      match updates.payFrequency with
      | some v => if v ≠ "" then v else st.payFrequency
      | none => st.payFrequency
    primaryGoal :=
      match updates.primaryGoal with
      | some v => if v ≠ "" then v else st.primaryGoal
      | none => st.primaryGoal
    autoSuggest := updates.autoSuggest.getD st.autoSuggest
    includePartner := updates.includePartner.getD st.includePartner
    monthlyBuffer := updates.monthlyBuffer.getD st.monthlyBuffer
    notificationWeeklySummary := updates.notificationWeeklySummary.getD st.notificationWeeklySummary
    notificationOverBudget := updates.notificationOverBudget.getD st.notificationOverBudget
    notificationBillReminders := updates.notificationBillReminders.getD st.notificationBillReminders
    notificationReminderDays := updates.notificationReminderDays.getD st.notificationReminderDays
    autoSaveEnabled := updates.autoSaveEnabled.getD st.autoSaveEnabled
    budgetGenerated := updates.budgetGenerated.getD st.budgetGenerated
    budgetCategories :=
      match nextCategories, nextBills with
      | some cs, some bs => mergeCategoriesWithBills cs bs
      | some cs, none => cs
      | none, some bs => mergeCategoriesWithBills st.budgetCategories bs
      | none, none => st.budgetCategories
    budgetGoals :=
      match updates.budgetGoals with
      | some gs => normalizeGoals gs
      | none => st.budgetGoals
    budgetBills :=
      match nextBills with
      | some bs => bs
      | none => st.budgetBills
    labels := updates.labels.getD st.labels
    scheduleBias := updates.scheduleBias.getD st.scheduleBias
    debtStrategy :=
      match updates.debtStrategy with
      | some v => if v ≠ "" then v else st.debtStrategy
      | none => st.debtStrategy
    stocks :=
      match updates.stocks with
      | some items => normalizeStocks items
      | none => st.stocks
    robinhoodConnected := updates.robinhoodConnected.getD st.robinhoodConnected
    monthlyInvestment := updates.monthlyInvestment.getD st.monthlyInvestment
    expectedReturn := updates.expectedReturn.getD st.expectedReturn }

/-- Empty patch (every field absent). -/
def emptyUpdates : BudgetUpdates := {}

/-- Tags of the deterministic local copilot commands. -/
inductive ActionTag where
  | resetBudget
  | clearBills
  | clearGoals
  | clearSchedule
  | clearLabels
  | resetPreferences
  | resetEverything
  deriving DecidableEq, Repr, BEq

/-- Deterministic bulk resets, from `applyLocalAction`.  Each flag is
derived from the action set (with `resetEverything` implying the others,
except `clearLabels`), and the React setters are modelled as sequential
record updates in source order. -/
def applyLocalAction (st : BudgetState) (actions : List ActionTag) : BudgetState :=
  let resetEverything := actions.contains ActionTag.resetEverything
  let resetBudget := actions.contains ActionTag.resetBudget || resetEverything
  let clearBills := actions.contains ActionTag.clearBills || resetEverything
  let clearGoals := actions.contains ActionTag.clearGoals || resetEverything
  let clearSchedule := actions.contains ActionTag.clearSchedule || resetEverything
  let resetPreferences := actions.contains ActionTag.resetPreferences || resetEverything
  let clearLabels := actions.contains ActionTag.clearLabels
  let st1 :=
    if resetBudget then
      { st with budgetCategories := categoriesSeed, budgetGoals := goalsSeed,
                budgetBills := billsSeed, budgetGenerated := true }
    else
      let sta := if clearBills then { st with budgetCategories := [], budgetBills := [] } else st
      let stb := if clearGoals then { sta with budgetGoals := [] } else sta
      if clearSchedule then { stb with budgetBills := [] } else stb
  let st2 :=
    if resetPreferences then
      { st1 with incomePerPaycheck := 2100, partnerIncome := 0, payFrequency := "biweekly",
                 primaryGoal := "stability", autoSuggest := true, includePartner := false,
                 monthlyBuffer := 150, notificationWeeklySummary := true,
                 notificationOverBudget := true, notificationBillReminders := true,
                 notificationReminderDays := 3, autoSaveEnabled := true,
                 debtStrategy := "avalanche", scheduleBias := 0 }
    else st1
  if resetEverything then { st2 with labels := ["Essential", "Lifestyle", "Savings"] }
  else if clearLabels then { st2 with labels := [] }
  else st2

/-- Word-boundary occurrence of a pattern in a character list: the
pattern occurs at some position with no word character immediately
before its first character or immediately after its last one, modelling
a JS `\b pat \b` regex test for patterns that start and end with word
characters.  The scan carries whether the previous character was a word
character. -/
def wordOccursAux (p : List Char) (prevIsWord : Bool) : List Char → Bool
  | [] => false
  | c :: t =>
    (!prevIsWord && p.isPrefixOf (c :: t) &&
      (match (c :: t).drop p.length with
       | [] => true
       | d :: _ => !isWordChar d)) ||
    wordOccursAux p (isWordChar c) t

/-- Word-boundary occurrence of a pattern in a string. -/
def wordOccurs (p : String) (text : String) : Bool :=
  wordOccursAux p.toList false text.toList

/-- Negation guard of the local command classifier: the lowercased
message matches both the negation-word regex and the destructive-verb
regex of the source. -/
def isNegatedCommand (text : String) : Bool :=
  (["don\x27t", "do not", "dont"].any fun w => wordOccurs w text) &&
  (["delete", "clear", "reset", "remove", "wipe"].any fun w => wordOccurs w text)

/-- Substring test on strings, modelling JS `String.includes`. -/
def includesStr (text phrase : String) : Bool :=
  hasSubstr phrase.toList text.toList

/-- Deterministic intent classifier of the chat copilot, from
`getLocalCopilotAction`: after the negation guard, fixed phrase tables
are matched by substring inclusion against the lowercased message and
the recognized action tags are assembled. -/
def getLocalCopilotAction (message : String) : Option (List ActionTag) :=
  let text := lowerStr message
  if isNegatedCommand text then none
  else
    let matchesAny := fun (phrases : List String) => phrases.any fun p => includesStr text p
    let resetEverything := matchesAny
      ["reset everything", "reset all", "start over", "factory reset", "wipe everything"]
    let resetBudget := matchesAny
      ["reset budget", "fresh budget", "new budget", "start a new budget"]
    let clearBills := matchesAny
      ["delete all bills", "delete bills", "remove all bills", "clear bills",
       "clear all bills"] || resetEverything
    let clearGoals := matchesAny ["clear goals", "delete goals", "remove goals"] || resetEverything
    let clearSchedule := matchesAny
      ["clear schedule", "clear bill schedule", "clear cash flow schedule",
       "remove schedule"] || resetEverything
    let wantsClearLabels := matchesAny ["clear labels", "remove labels", "delete labels"]
    let clearLabels := wantsClearLabels && !resetEverything
    let resetPreferences := matchesAny
      ["reset preferences", "reset settings", "clear preferences"] || resetEverything
    if !resetBudget && !clearBills && !clearGoals && !clearSchedule && !clearLabels &&
        !resetPreferences && !resetEverything then
      none
    else
      let actions :=
        (if resetBudget || resetEverything then [ActionTag.resetBudget]
         else
           (if clearBills then [ActionTag.clearBills] else []) ++
           (if clearGoals then [ActionTag.clearGoals] else []) ++
           (if clearSchedule then [ActionTag.clearSchedule] else [])) ++
        (if resetPreferences then [ActionTag.resetPreferences] else []) ++
        (if resetEverything then [ActionTag.resetEverything]
         else if clearLabels then [ActionTag.clearLabels] else [])
      some actions

/-- Greedy consumption of `(?:,\d{3})*` groups: leading groups of a
comma followed by exactly three digits, returning the consumed prefix
and the remainder.  Giving groups back can never help the pattern that
follows (it would put a comma where a dot is required), so the greedy
parse is the full backtracking semantics. -/
def commaGroups : List Char → List Char × List Char
  | ',' :: a :: b :: c :: rest =>
    if a.isDigit && b.isDigit && c.isDigit then
      let (g, r) := commaGroups rest
      (',' :: a :: b :: c :: g, r)
    else ([], ',' :: a :: b :: c :: rest)
  | l => ([], l)

/-- Match of the closing `(?:\.\d{2})` of the amount regex at the head
of the list. -/
def tryDotDigits : List Char → Option (List Char)
  | '.' :: a :: b :: _ => if a.isDigit && b.isDigit then some ['.', a, b] else none
  | _ => none

/-- Attempt of the first alternative `\d{1,3}(?:,\d{3})*` with exactly
`k` leading digits, followed by the required decimals. -/
def tryGroupedAt (l : List Char) (k : ℕ) : Option (List Char) :=
  let ds := l.take k
  if ds.length = k && ds.all Char.isDigit then
    let (gs, rest) := commaGroups (l.drop k)
    match tryDotDigits rest with
    | some dd => some (ds ++ gs ++ dd)
    | none => none
  else none

/-- First alternative of the amount regex at the head of the list, with
the greedy 3-then-2-then-1 backtracking of `\d{1,3}`. -/
def tryAlt1 (l : List Char) : Option (List Char) :=
  match tryGroupedAt l 3 with
  | some m => some m
  | none =>
    match tryGroupedAt l 2 with
    | some m => some m
    | none => tryGroupedAt l 1

/-- Attempt of the second alternative `\d+` with `k` leading digits,
backtracking from the longest run down. -/
def tryPlainAt (l : List Char) : ℕ → Option (List Char)
  | 0 => none
  | k + 1 =>
    match tryDotDigits (l.drop (k + 1)) with
    | some dd => some (l.take (k + 1) ++ dd)
    | none => tryPlainAt l k

/-- Second alternative of the amount regex at the head of the list. -/
def tryAlt2 (l : List Char) : Option (List Char) :=
  tryPlainAt l (l.takeWhile Char.isDigit).length

/-- Match of the amount regex `(\d{1,3}(?:,\d{3})*|\d+)(?:\.\d{2})` at
the head of the list: the first alternative is preferred, as in the JS
engine. -/
def matchAmountAt (l : List Char) : Option (List Char) :=
  match tryAlt1 l with
  | some m => some m
  | none => tryAlt2 l

/-- All matches of the amount regex with their start indices, scanning
left to right and resuming after each match, as `matchAll` does.  The
fuel equals the remaining length; every step consumes at least one
character (a match is never empty), so the fuel never runs out. -/
def scanAmountsAux : ℕ → ℕ → List Char → List (ℕ × List Char)
  | 0, _, _ => []
  | fuel + 1, idx, l =>
    match matchAmountAt l with
    | some m => (idx, m) :: scanAmountsAux fuel (idx + m.length) (l.drop m.length)
    | none =>
      match l with
      | [] => []
      | _ :: t => scanAmountsAux fuel (idx + 1) t

/-- All matches of the amount regex in a character list. -/
def scanAmounts (l : List Char) : List (ℕ × List Char) := scanAmountsAux l.length 0 l

/-- Replacement of every match of the amount regex by the empty string,
modelling `replace(amountRegex, "")` with the global flag. -/
def removeAmountsAux : ℕ → List Char → List Char
  | 0, l => l
  | fuel + 1, l =>
    match matchAmountAt l with
    | some m => removeAmountsAux fuel (l.drop m.length)
    | none =>
      match l with
      | [] => []
      | c :: t => c :: removeAmountsAux fuel t

/-- Character list with every amount match removed. -/
def removeAmounts (l : List Char) : List Char := removeAmountsAux l.length l

/-- Exact rational value of a matched amount: commas stripped, integer
part and the two decimals read in base 10.  The JS `parseFloat` value of
such a match is modelled by its exact decimal value. -/
def ratOfAmountChars (m : List Char) : ℚ :=
  (digitsToNat ((m.filter fun c => c ≠ ',').takeWhile fun c => c ≠ '.') : ℚ) +
  (digitsToNat (((m.filter fun c => c ≠ ',').dropWhile fun c => c ≠ '.').drop 1) : ℚ) / 100

/-- Value of the first amount match of a text, from `parseAmount` (the
NaN fallback of the source can never fire on a regex match). -/
def parseAmount (text : List Char) : Option ℚ :=
  match scanAmounts text with
  | [] => none
  | (_, m) :: _ => some (ratOfAmountChars m)

/-- Collapse of every whitespace run into a single space, modelling
`replace(/\s+/g, " ")`. -/
def collapseWsAux : Bool → List Char → List Char
  | _, [] => []
  | prevWs, c :: t =>
    if jsWs c then
      if prevWs then collapseWsAux true t else ' ' :: collapseWsAux true t
    else c :: collapseWsAux false t

/-- Whitespace-collapsed character list. -/
def collapseWs (l : List Char) : List Char := collapseWsAux false l

/-- Test of the all-caps heading pattern `^[A-Z\s]+$`. -/
def isUpperSpaceRun (l : List Char) : Bool :=
  !l.isEmpty && l.all fun c => ('A' ≤ c && c ≤ 'Z') || jsWs c

/-- Split on `\r?\n` separators, modelling `split(/\r?\n/)`. -/
def splitLinesAux (cur : List Char) : List Char → List (List Char)
  | [] => [cur.reverse]
  | '\r' :: '\n' :: rest => cur.reverse :: splitLinesAux [] rest
  | '\n' :: rest => cur.reverse :: splitLinesAux [] rest
  | c :: rest => splitLinesAux (c :: cur) rest

/-- Lines of a character list. -/
def splitLines (l : List Char) : List (List Char) := splitLinesAux [] l

/-- Remainder after the first colon. -/
def afterFirstColon : List Char → List Char
  | [] => []
  | ':' :: rest => rest
  | _ :: rest => afterFirstColon rest

/-- Name/amount pair extracted by the bulk-paste parser. -/
structure ParsedBill where
  name : String
  amount : ℚ
  deriving DecidableEq, Repr

/-- Tail of the pasted text: everything after the first colon when one
is present (`split(":").slice(1).join(":")`), else the whole text. -/
def billParseTail (text : String) : List Char :=
  let tl := text.toList
  if tl.contains ':' then afterFirstColon tl else tl

/-- Trimmed nonempty lines of the tail. -/
def billParseLines (text : String) : List (List Char) :=
  ((splitLines (billParseTail text)).map trimChars).filter fun l => !l.isEmpty

/-- Chunks handed to the per-chunk extraction: the lines when there are
at least two, else the trimmed tail as a single chunk. -/
def billParseChunks (text : String) : List (List Char) :=
  let lines := billParseLines text
  if lines.length > 1 then lines else [trimChars (billParseTail text)]

/-- Items of the multi-amount cursor walk over one chunk: the text
between the previous match end and the current match start names the
amount, discarded when blank. -/
def cursorItems (chunk : List Char) : ℕ → List (ℕ × List Char) → List ParsedBill
  | _, [] => []
  | cursor, (idx, m) :: rest =>
    let namePart := trimChars ((chunk.take idx).drop cursor)
    let amount := (parseAmount m).getD 0
    let tailItems := cursorItems chunk (idx + m.length) rest
    if namePart ≠ [] then ⟨String.mk namePart, amount⟩ :: tailItems else tailItems

/-- Cursor position after the last match. -/
def endCursor : ℕ → List (ℕ × List Char) → ℕ
  | cursor, [] => cursor
  | _, (idx, m) :: rest => endCursor (idx + m.length) rest

/-- Extraction from a single chunk, from the `forEach` body of
`parseBillsFromText`: chunks without amounts go to the missing list
unless they are all-caps headings; a single-amount chunk of a multi-line
paste is named by deleting its amount; otherwise the cursor walk splits
the chunk at every amount. -/
def processChunk (linesCount : ℕ) (chunk : List Char) : List ParsedBill × List String :=
  let ms := scanAmounts chunk
  if ms.length = 0 then
    if isUpperSpaceRun chunk then ([], []) else ([], [String.mk chunk])
  else if ms.length = 1 && linesCount > 1 then
    let amount := (parseAmount chunk).getD 0
    let nm := trimChars (removeAmounts chunk)
    (if nm ≠ [] then [⟨String.mk nm, amount⟩] else [], [])
  else
    let trailing := trimChars (chunk.drop (endCursor 0 ms))
    (cursorItems chunk 0 ms, if trailing ≠ [] then [String.mk trailing] else [])

/-- Raw extracted items over all chunks. -/
def billParseRawItems (text : String) : List ParsedBill :=
  ((billParseChunks text).map fun chunk =>
    (processChunk (billParseLines text).length chunk).1).flatten

/-- Unparsed chunk remnants over all chunks. -/
def billParseMissing (text : String) : List String :=
  ((billParseChunks text).map fun chunk =>
    (processChunk (billParseLines text).length chunk).2).flatten

/-- Normalized items: whitespace runs collapsed, trimmed, blank names
dropped. -/
def normalizedBillItems (text : String) : List ParsedBill :=
  ((billParseRawItems text).map fun item =>
    (⟨String.mk (trimChars (collapseWs item.name.toList)), item.amount⟩ : ParsedBill)).filter
    fun item => item.name.length > 0

/-- Count of amount-regex matches over the whole tail. -/
def billAmountMatchCount (text : String) : ℕ := (scanAmounts (billParseTail text)).length

/-- Bulk-paste bill parser, from `parseBillsFromText`: the result is
withheld (null) only when fewer than two normalized items were extracted
and the amount regex found fewer than two matches in the tail. -/
def parseBillsFromText (text : String) : Option (List ParsedBill × List String) :=
  if (normalizedBillItems text).length < 2 ∧ billAmountMatchCount text < 2 then none
  else some (normalizedBillItems text, billParseMissing text)

/-- Budget state of Scenario C: a Rent bill mirrored by a Rent category
plus a Groceries category. -/
def scenarioCState : BudgetState :=
  { initialState with
    budgetCategories := [⟨"Rent", 1200, 1200⟩, ⟨"Groceries", 420, 368⟩],
    budgetBills := [⟨"Rent", "2024-03-01", 1200, none⟩] }

/-- Patch bill whose name is empty (falsy in JS). -/
def emptyNameBillPatch : BillPatch := ⟨"", "", some 5, none⟩

/-- Patch bill named Phone with no date. -/
def phoneBillPatch : BillPatch := ⟨"Phone", "", some 80, none⟩

/-- Patch bill named Internet with no date. -/
def internetBillPatch : BillPatch := ⟨"Internet", "", some 60, none⟩

/-- Patch that replaces categories by an empty list and bills by one
empty-named bill. -/
def clearedCatsEmptyBillUpdates : BudgetUpdates :=
  { budgetCategories := some [], budgetBills := some [emptyNameBillPatch] }

/-- Patch that replaces categories by an empty list and bills by one
Phone bill. -/
def clearedCatsPhoneBillUpdates : BudgetUpdates :=
  { budgetCategories := some [], budgetBills := some [phoneBillPatch] }

/-- Patch that carries only one empty-named bill and no categories. -/
def emptyNameBillOnlyUpdates : BudgetUpdates := { budgetBills := some [emptyNameBillPatch] }

/-- Patch that carries only one Internet bill and no categories. -/
def internetBillOnlyUpdates : BudgetUpdates := { budgetBills := some [internetBillPatch] }

/-- Every result of the label fallback chain lies in 1..4. -/
theorem billWeekIndexLabel_range (dateLabel : String) :
    1 ≤ billWeekIndexLabel dateLabel ∧ billWeekIndexLabel dateLabel ≤ 4 := by
  unfold billWeekIndexLabel
  rcases isoDayOf dateLabel with _ | day
  · rcases weekMatchNum dateLabel.toList with _ | w
    · rcases firstOneTwoDigits dateLabel.toList with _ | day
      · simp
      · simp only []
        split_ifs <;> simp
    · simp only []
      constructor
      · exact le_min (by norm_num) (le_max_left 1 w)
      · exact min_le_left 4 _
  · simp only []
    split_ifs <;> simp

/-- Every result of `billWeekIndex` lies in 1..4. -/
theorem billWeekIndex_range (dateLabel : String) (recurringDay : Option ℚ) :
    1 ≤ billWeekIndex dateLabel recurringDay ∧ billWeekIndex dateLabel recurringDay ≤ 4 := by
  unfold billWeekIndex
  rcases recurringDay with _ | d
  · exact billWeekIndexLabel_range dateLabel
  · simp only []
    split_ifs <;> first
      | exact billWeekIndexLabel_range dateLabel
      | simp

theorem weekBucket_nil (j : ℕ) : weekBucket [] j = 0 := rfl

theorem weekBucket_cons (b : BudgetBill) (bs : List BudgetBill) (j : ℕ) :
    weekBucket (b :: bs) j =
      (if billWeekIndex b.date b.recurringDay = j then b.amount else 0) + weekBucket bs j := by
  unfold weekBucket
  by_cases h : billWeekIndex b.date b.recurringDay = j
  · simp [List.filter_cons, h]
  · simp [List.filter_cons, h]

theorem weeklyBillTotals_foldl (bills : List BudgetBill) (t1 t2 t3 t4 : ℚ) :
    bills.foldl weekTotalsStep [t1, t2, t3, t4] =
    [t1 + weekBucket bills 1, t2 + weekBucket bills 2,
     t3 + weekBucket bills 3, t4 + weekBucket bills 4] := by
  induction bills generalizing t1 t2 t3 t4 with
  | nil => simp [weekBucket_nil]
  | cons b bs ih =>
    have hw := billWeekIndex_range b.date b.recurringDay
    have hcase : billWeekIndex b.date b.recurringDay = 1 ∨
        billWeekIndex b.date b.recurringDay = 2 ∨
        billWeekIndex b.date b.recurringDay = 3 ∨
        billWeekIndex b.date b.recurringDay = 4 := by omega
    rcases hcase with h | h | h | h
    · have hstep : weekTotalsStep [t1, t2, t3, t4] b = [t1 + b.amount, t2, t3, t4] := by
        simp [weekTotalsStep, h]
      rw [List.foldl_cons, hstep, ih]
      simp [weekBucket_cons, h, add_assoc]
    · have hstep : weekTotalsStep [t1, t2, t3, t4] b = [t1, t2 + b.amount, t3, t4] := by
        simp [weekTotalsStep, h]
      rw [List.foldl_cons, hstep, ih]
      simp [weekBucket_cons, h, add_assoc]
    · have hstep : weekTotalsStep [t1, t2, t3, t4] b = [t1, t2, t3 + b.amount, t4] := by
        simp [weekTotalsStep, h]
      rw [List.foldl_cons, hstep, ih]
      simp [weekBucket_cons, h, add_assoc]
    · have hstep : weekTotalsStep [t1, t2, t3, t4] b = [t1, t2, t3, t4 + b.amount] := by
        simp [weekTotalsStep, h]
      rw [List.foldl_cons, hstep, ih]
      simp [weekBucket_cons, h, add_assoc]

theorem weekBucket_total (bills : List BudgetBill) :
    weekBucket bills 1 + weekBucket bills 2 + weekBucket bills 3 + weekBucket bills 4 =
      (bills.map (fun b => b.amount)).sum := by
  induction bills with
  | nil => simp [weekBucket_nil]
  | cons b bs ih =>
    have hw := billWeekIndex_range b.date b.recurringDay
    have hcase : billWeekIndex b.date b.recurringDay = 1 ∨
        billWeekIndex b.date b.recurringDay = 2 ∨
        billWeekIndex b.date b.recurringDay = 3 ∨
        billWeekIndex b.date b.recurringDay = 4 := by omega
    rcases hcase with h | h | h | h <;>
      simp only [weekBucket_cons, h, List.map_cons, List.sum_cons] <;>
      norm_num <;> linarith [ih]

theorem foldl_add_amount (l : List BudgetBill) (init : ℚ) :
    l.foldl (fun sum bill => sum + bill.amount) init = init + (l.map (fun b => b.amount)).sum := by
  induction l generalizing init with
  | nil => simp
  | cons b bs ih => simp [List.foldl_cons, ih]; ring

theorem plannedBillsTotal_eq_sum (st : BudgetState) :
    plannedBillsTotal st = (st.budgetBills.map (fun b => b.amount)).sum := by
  unfold plannedBillsTotal
  rw [foldl_add_amount]
  ring

theorem weeklyBillTotals_eq (st : BudgetState) :
    weeklyBillTotals st =
      [weekBucket st.budgetBills 1, weekBucket st.budgetBills 2,
       weekBucket st.budgetBills 3, weekBucket st.budgetBills 4] := by
  have h := weeklyBillTotals_foldl st.budgetBills 0 0 0 0
  simpa [weeklyBillTotals] using h

theorem weeklyAmounts_sum_aux (st : BudgetState)
    (h : st.scheduleBias = 0 ∨ st.scheduleBias = 1 ∨ st.scheduleBias = 2 ∨ st.scheduleBias = 3) :
    (weeklyAmounts st).sum = leftToBudget st := by
  have hB : weekBucket st.budgetBills 1 + weekBucket st.budgetBills 2 +
      weekBucket st.budgetBills 3 + weekBucket st.budgetBills 4 = plannedBillsTotal st := by
    rw [weekBucket_total, plannedBillsTotal_eq_sum]
  have hT := weeklyBillTotals_eq st
  rcases h with h | h | h | h <;>
    · unfold weeklyAmounts
      rw [h, hT]
      have hm1 : (Int.tmod 1 4).toNat = 1 := rfl
      have hm2 : (Int.tmod 2 4).toNat = 2 := rfl
      have hm3 : (Int.tmod 3 4).toNat = 3 := rfl
      have hm4 : (Int.tmod 4 4).toNat = 0 := rfl
      have hm5 : (Int.tmod 5 4).toNat = 1 := rfl
      have hm6 : (Int.tmod 6 4).toNat = 2 := rfl
      have hm7 : (Int.tmod 7 4).toNat = 3 := rfl
      simp only [weeklyWeights, weeklyBaseWeights, List.length_cons, List.length_nil]
      norm_num [List.range_succ, List.getD, hm1, hm2, hm3, hm4, hm5, hm6, hm7,
        leftToBudget, weeklyCategorySpend, weeklyInvestment, weeklyBuffer, weeklyBaseWeights]
      linarith [hB]

theorem contains_map_eq_any {α : Type} (f : α → String) (l : List α) (x : String) :
    ((l.map f).contains x) = (l.any fun a => f a == x) := by
  induction l with
  | nil => rfl
  | cons a l ih =>
    rw [List.map_cons, List.contains_cons, List.any_cons, ih]
    by_cases hx : f a = x
    · have h1 : (x == f a) = true := by rw [hx]; exact beq_self_eq_true x
      have h2 : (f a == x) = true := by rw [hx]; exact beq_self_eq_true x
      rw [h1, h2]
    · have h1 : (x == f a) = false := by
        rw [beq_eq_false_iff_ne]
        exact fun hc => hx hc.symm
      have h2 : (f a == x) = false := by
        rw [beq_eq_false_iff_ne]
        exact hx
      rw [h1, h2]

theorem foldl_skip_filter (p : BudgetCategory → Bool) (cats : List BudgetCategory) (init : ℚ) :
    cats.foldl (fun sum category => if p category then sum else sum + category.planned) init =
    init + ((cats.filter fun category => !(p category)).map fun c => c.planned).sum := by
  induction cats generalizing init with
  | nil => simp
  | cons c cs ih =>
    by_cases h : p c
    · simp [List.foldl_cons, h, List.filter_cons, ih]
    · simp [List.foldl_cons, h, List.filter_cons, ih]
      ring

theorem mergeCategoriesWithBills_take (categories : List BudgetCategory)
    (bills : List BudgetBill) :
    (mergeCategoriesWithBills categories bills).take categories.length = categories := by
  unfold mergeCategoriesWithBills
  by_cases h :
      ((bills.filter fun bill =>
          bill.name ≠ "" &&
          !((categories.map fun category => lowerStr category.name).contains
            (lowerStr bill.name))).map
        fun bill => (⟨bill.name, bill.amount, 0⟩ : BudgetCategory)).length ≠ 0
  · rw [if_pos h]
    exact List.take_left ..
  · rw [if_neg h]
    exact List.take_length ..

theorem mergeCategoriesWithBills_mem (categories : List BudgetCategory)
    (bills : List BudgetBill) (b : BudgetBill) (hb : b ∈ bills) (hname : b.name ≠ "")
    (hmatch : ∀ c ∈ categories, lowerStr c.name ≠ lowerStr b.name) :
    (⟨b.name, b.amount, 0⟩ : BudgetCategory) ∈ mergeCategoriesWithBills categories bills := by
  have hcontains :
      ((categories.map fun category => lowerStr category.name).contains (lowerStr b.name)) =
        false := by
    rw [contains_map_eq_any, List.any_eq_false]
    intro c hc
    simp only [beq_iff_eq]
    exact hmatch c hc
  have hfilter : b ∈ bills.filter fun bill =>
      bill.name ≠ "" &&
      !((categories.map fun category => lowerStr category.name).contains
        (lowerStr bill.name)) := by
    refine List.mem_filter.2 ⟨hb, ?_⟩
    rw [hcontains]
    simp [hname]
  have hmem : (⟨b.name, b.amount, 0⟩ : BudgetCategory) ∈
      (bills.filter fun bill =>
        bill.name ≠ "" &&
        !((categories.map fun category => lowerStr category.name).contains
          (lowerStr bill.name))).map
        (fun bill => (⟨bill.name, bill.amount, 0⟩ : BudgetCategory)) :=
    List.mem_map_of_mem _ hfilter
  unfold mergeCategoriesWithBills
  have hlen :
      ((bills.filter fun bill =>
          bill.name ≠ "" &&
          !((categories.map fun category => lowerStr category.name).contains
            (lowerStr bill.name))).map
        fun bill => (⟨bill.name, bill.amount, 0⟩ : BudgetCategory)).length ≠ 0 := by
    intro h0
    rw [List.length_eq_zero] at h0
    rw [h0] at hmem
    exact absurd hmem (List.not_mem_nil _)
  rw [if_pos hlen]
  exact List.mem_append_right _ hmem

theorem applyBudgetUpdates_categories_both (st : BudgetState) (u : BudgetUpdates)
    (cs : List CategoryPatch) (bs : List BillPatch)
    (hc : u.budgetCategories = some cs) (hb : u.budgetBills = some bs) :
    (applyBudgetUpdates st u).budgetCategories =
      mergeCategoriesWithBills (normalizeCategories cs) (normalizeBills bs) := by
  unfold applyBudgetUpdates
  rw [hc, hb]
  rfl

theorem applyBudgetUpdates_categories_billsOnly (st : BudgetState) (u : BudgetUpdates)
    (bs : List BillPatch)
    (hc : u.budgetCategories = none) (hb : u.budgetBills = some bs) :
    (applyBudgetUpdates st u).budgetCategories =
      mergeCategoriesWithBills st.budgetCategories (normalizeBills bs) := by
  unfold applyBudgetUpdates
  rw [hc, hb]
  rfl

theorem applyBudgetUpdates_bills (st : BudgetState) (u : BudgetUpdates)
    (bs : List BillPatch) (hb : u.budgetBills = some bs) :
    (applyBudgetUpdates st u).budgetBills = normalizeBills bs := by
  unfold applyBudgetUpdates
  rw [hb]
  rfl

/-- C1: for every budget state whose schedule bias lies in {0, 1, 2, 3},
the sum of the four projected weekly amounts equals `leftToBudget`, the
monthly residual (monthly income minus bill total, non-duplicated
category total, monthly investment, and the buffer floored at zero) —
the weekly curve is a zero-sum redistribution of that residual. -/
theorem c1_weeklySum_eq_leftToBudget (st : BudgetState)
    (h : st.scheduleBias = 0 ∨ st.scheduleBias = 1 ∨ st.scheduleBias = 2 ∨
      st.scheduleBias = 3) :
    (weeklyAmounts st).sum = leftToBudget st :=
  weeklyAmounts_sum_aux st h

/-- Witness for C1 at the initial application state, whose bias is 0. -/
theorem c1_weeklySum_witness :
    (initialState.scheduleBias = 0 ∨ initialState.scheduleBias = 1 ∨
      initialState.scheduleBias = 2 ∨ initialState.scheduleBias = 3) ∧
    (weeklyAmounts initialState).sum = leftToBudget initialState :=
  ⟨Or.inl rfl, c1_weeklySum_eq_leftToBudget initialState (Or.inl rfl)⟩

/-- C2: the week bucketing function is total — for every date label
(including the empty string and arbitrary garbage) and every recurring
day argument it returns a week in {1, 2, 3, 4} and cannot throw, and
fully unparseable input degrades to week 1. -/
theorem c2_billWeekIndex_total :
    (∀ (dateLabel : String) (recurringDay : Option ℚ),
      1 ≤ billWeekIndex dateLabel recurringDay ∧ billWeekIndex dateLabel recurringDay ≤ 4) ∧
    billWeekIndex "" none = 1 :=
  ⟨fun dateLabel recurringDay => billWeekIndex_range dateLabel recurringDay, rfl⟩

/-- Counterexample for C3 as frozen: a recurring day of 0 is a valid JS
number, and the claim then requires week 1 (clamp to 1) with the date
label ignored; the code treats 0 as falsy and falls through to the
label, giving week 3 for a `week 3` label and week 1 for an empty one —
so the label is not ignored and the clamp mapping is not applied. -/
theorem c3_counterexample :
    billWeekIndex "week 3" (some 0) = 3 ∧ billWeekIndex "" (some 0) = 1 := by
  constructor
  · rfl
  · rfl

/-- C3 (amended): for every call whose recurring day is a valid nonzero
number, the result is determined solely by the recurring day clamped to
1..31 — clamped day at most 7 gives week 1, at most 14 week 2, at most
21 week 3, else week 4 — and the date label argument is ignored. -/
theorem c3_recurring_day_mapping (d : ℚ) (hd : d ≠ 0) (dateLabel : String) :
    billWeekIndex dateLabel (some d) =
      (if min 31 (max 1 d) ≤ 7 then 1
       else if min 31 (max 1 d) ≤ 14 then 2
       else if min 31 (max 1 d) ≤ 21 then 3
       else 4) := by
  unfold billWeekIndex
  dsimp only
  rw [if_pos hd]

/-- Witness for C3: a recurring day of 15 maps to week 3 whatever the
label says. -/
theorem c3_recurring_day_witness :
    (15 : ℚ) ≠ 0 ∧ billWeekIndex "2024-03-20" (some 15) = 3 := by
  refine ⟨by norm_num, ?_⟩
  rw [c3_recurring_day_mapping 15 (by norm_num) "2024-03-20"]
  norm_num

/-- C8: every chat message on which both the negation-word test and the
destructive-verb test of the classifier fire is answered with no local
action — a negated request never triggers a reset or clear. -/
theorem c8_negated_command_none (message : String)
    (h : isNegatedCommand (lowerStr message) = true) :
    getLocalCopilotAction message = none := by
  simp [getLocalCopilotAction, h]

/-- Witness for C8 on a concrete negated message. -/
theorem c8_negated_command_witness :
    isNegatedCommand (lowerStr "please don\x27t delete my bills") = true ∧
    getLocalCopilotAction "please don\x27t delete my bills" = none :=
  ⟨by decide, c8_negated_command_none "please don\x27t delete my bills" (by decide)⟩

/-- C9: applying the local action `clearBills` alone (no reset actions)
empties both the category array and the bill array, while goals, labels
and every scalar preference are left unchanged. -/
theorem c9_clearBills_frame (st : BudgetState) :
    (applyLocalAction st [ActionTag.clearBills]).budgetCategories = [] ∧
    (applyLocalAction st [ActionTag.clearBills]).budgetBills = [] ∧
    (applyLocalAction st [ActionTag.clearBills]).budgetGoals = st.budgetGoals ∧
    (applyLocalAction st [ActionTag.clearBills]).labels = st.labels ∧
    (applyLocalAction st [ActionTag.clearBills]).incomePerPaycheck = st.incomePerPaycheck ∧
    (applyLocalAction st [ActionTag.clearBills]).partnerIncome = st.partnerIncome ∧
    (applyLocalAction st [ActionTag.clearBills]).payFrequency = st.payFrequency ∧
    (applyLocalAction st [ActionTag.clearBills]).primaryGoal = st.primaryGoal ∧
    (applyLocalAction st [ActionTag.clearBills]).autoSuggest = st.autoSuggest ∧
    (applyLocalAction st [ActionTag.clearBills]).includePartner = st.includePartner ∧
    (applyLocalAction st [ActionTag.clearBills]).monthlyBuffer = st.monthlyBuffer ∧
    (applyLocalAction st [ActionTag.clearBills]).notificationWeeklySummary =
      st.notificationWeeklySummary ∧
    (applyLocalAction st [ActionTag.clearBills]).notificationOverBudget =
      st.notificationOverBudget ∧
    (applyLocalAction st [ActionTag.clearBills]).notificationBillReminders =
      st.notificationBillReminders ∧
    (applyLocalAction st [ActionTag.clearBills]).notificationReminderDays =
      st.notificationReminderDays ∧
    (applyLocalAction st [ActionTag.clearBills]).autoSaveEnabled = st.autoSaveEnabled ∧
    (applyLocalAction st [ActionTag.clearBills]).budgetGenerated = st.budgetGenerated ∧
    (applyLocalAction st [ActionTag.clearBills]).scheduleBias = st.scheduleBias ∧
    (applyLocalAction st [ActionTag.clearBills]).debtStrategy = st.debtStrategy ∧
    (applyLocalAction st [ActionTag.clearBills]).stocks = st.stocks ∧
    (applyLocalAction st [ActionTag.clearBills]).robinhoodConnected = st.robinhoodConnected ∧
    (applyLocalAction st [ActionTag.clearBills]).monthlyInvestment = st.monthlyInvestment ∧
    (applyLocalAction st [ActionTag.clearBills]).expectedReturn = st.expectedReturn :=
  ⟨rfl, rfl, rfl, rfl, rfl, rfl, rfl, rfl, rfl, rfl, rfl, rfl, rfl, rfl, rfl, rfl, rfl,
   rfl, rfl, rfl, rfl, rfl, rfl⟩

theorem parseAmount_rent : (parseAmount "Rent 1200.00".toList).getD 0 = 1200 := by
  have hp : parseAmount "Rent 1200.00".toList = some (ratOfAmountChars "1200.00".toList) := rfl
  rw [hp, Option.getD_some]
  unfold ratOfAmountChars
  have hi : digitsToNat ((("1200.00".toList).filter fun c => c ≠ ',').takeWhile
      fun c => c ≠ '.') = 1200 := by decide
  have hf : digitsToNat (((("1200.00".toList).filter fun c => c ≠ ',').dropWhile
      fun c => c ≠ '.').drop 1) = 0 := by decide
  rw [hi, hf]
  norm_num

theorem parseAmount_phone : (parseAmount "Phone 80.00".toList).getD 0 = 80 := by
  have hp : parseAmount "Phone 80.00".toList = some (ratOfAmountChars "80.00".toList) := rfl
  rw [hp, Option.getD_some]
  unfold ratOfAmountChars
  have hi : digitsToNat ((("80.00".toList).filter fun c => c ≠ ',').takeWhile
      fun c => c ≠ '.') = 80 := by decide
  have hf : digitsToNat (((("80.00".toList).filter fun c => c ≠ ',').dropWhile
      fun c => c ≠ '.').drop 1) = 0 := by decide
  rw [hi, hf]
  norm_num

/-- Counterexample for C4 as frozen: from `1200.00 80.00` the parser
extracts zero name/amount pairs (fewer than 2), yet it does not return
null — the amount regex found two matches, so it returns an empty item
list instead. -/
theorem c4_counterexample :
    parseBillsFromText "1200.00 80.00" = some ([], []) ∧
    (normalizedBillItems "1200.00 80.00").length = 0 := by
  constructor
  · rfl
  · rfl

/-- C4 (amended): the parser returns null exactly when fewer than two
name/amount pairs were extracted and the amount regex found fewer than
two matches in the colon-stripped text; the two-line paste
`Rent 1200.00` / `Phone 80.00` parses to exactly the two pairs
(Rent, 1200) and (Phone, 80) with nothing left over. -/
theorem c4_parse_guard :
    (∀ text : String,
      parseBillsFromText text = none ↔
        (normalizedBillItems text).length < 2 ∧ billAmountMatchCount text < 2) ∧
    parseBillsFromText "Rent 1200.00\nPhone 80.00" =
      some ([⟨"Rent", 1200⟩, ⟨"Phone", 80⟩], []) := by
  constructor
  · intro text
    unfold parseBillsFromText
    split_ifs with h
    · exact ⟨fun _ => h, fun _ => rfl⟩
    · simp [h]
  · have hstruct : parseBillsFromText "Rent 1200.00\nPhone 80.00" =
        some ([⟨"Rent", (parseAmount "Rent 1200.00".toList).getD 0⟩,
               ⟨"Phone", (parseAmount "Phone 80.00".toList).getD 0⟩], []) := rfl
    rw [hstruct, parseAmount_rent, parseAmount_phone]

/-- C5: the planned category total sums exactly the planned values of
the categories whose lowercased name matches no lowercased bill name;
in Scenario C (a Rent bill mirrored by a Rent category next to a
Groceries category) the Rent category is excluded and the total is
420. -/
theorem c5_plannedCategoryTotal_excludes :
    (∀ st : BudgetState,
      plannedCategoryTotal st =
        ((st.budgetCategories.filter fun category =>
            !(st.budgetBills.any fun bill =>
              lowerStr bill.name == lowerStr category.name)).map
          fun category => category.planned).sum) ∧
    plannedCategoryTotal scenarioCState = 420 := by
  constructor
  · intro st
    unfold plannedCategoryTotal
    rw [foldl_skip_filter (fun category => (billNames st).contains (lowerStr category.name))
      st.budgetCategories 0, zero_add]
    have hfil : (st.budgetCategories.filter fun category =>
        !((billNames st).contains (lowerStr category.name))) =
        (st.budgetCategories.filter fun category =>
          !(st.budgetBills.any fun bill => lowerStr bill.name == lowerStr category.name)) := by
      apply List.filter_congr
      intro c _
      unfold billNames
      rw [contains_map_eq_any]
    rw [hfil]
  · have hc : scenarioCState.budgetCategories =
        [⟨"Rent", 1200, 1200⟩, ⟨"Groceries", 420, 368⟩] := rfl
    have h1 : (billNames scenarioCState).contains (lowerStr "Rent") = true := by decide
    have h2 : (billNames scenarioCState).contains (lowerStr "Groceries") = false := by decide
    unfold plannedCategoryTotal
    rw [hc]
    simp only [List.foldl_cons, List.foldl_nil]
    simp only [h1, h2]
    norm_num

/-- C7: the recurring-date resolver returns the recurring day clamped to
1..31 and then to the reference month length, placed in the reference
month when that day is not before the reference day, and otherwise the
correspondingly clamped day in the following month. -/
theorem c7_nextRecurringDate_spec (d : ℤ) (ref : UtcDate)
    (hm0 : 0 ≤ ref.month) (hm1 : ref.month ≤ 11) :
    (ref.day ≤ min (min 31 (max 1 d)) (daysInMonth0 ref.year ref.month) →
      nextRecurringDate d ref =
        ⟨ref.year, ref.month, min (min 31 (max 1 d)) (daysInMonth0 ref.year ref.month)⟩) ∧
    (min (min 31 (max 1 d)) (daysInMonth0 ref.year ref.month) < ref.day →
      nextRecurringDate d ref =
        ⟨(followingMonth ref.year ref.month).1, (followingMonth ref.year ref.month).2,
          min (min 31 (max 1 d))
            (daysInMonth0 (followingMonth ref.year ref.month).1
              (followingMonth ref.year ref.month).2)⟩) := by
  constructor
  · intro h
    simp only [nextRecurringDate]
    rw [if_neg (not_lt.2 h)]
  · intro h
    simp only [nextRecurringDate]
    rw [if_pos h]
    unfold followingMonth
    by_cases hm : ref.month = 11
    · have h1 : (ref.month + 1) / 12 = 1 := by omega
      have h2 : (ref.month + 1) % 12 = 0 := by omega
      rw [if_pos hm, h1, h2]
    · have h1 : (ref.month + 1) / 12 = 0 := by omega
      have h2 : (ref.month + 1) % 12 = ref.month + 1 := by omega
      rw [if_neg hm, h1, h2, add_zero]

/-- Witness for C7 on Scenario D: day 15 seen from 2024-03-20 (month 2
in 0-based counting) rolls forward to 2024-04-15. -/
theorem c7_nextRecurringDate_witness :
    (0 ≤ (⟨2024, 2, 20⟩ : UtcDate).month ∧ (⟨2024, 2, 20⟩ : UtcDate).month ≤ 11) ∧
    nextRecurringDate 15 ⟨2024, 2, 20⟩ = ⟨2024, 3, 15⟩ := by
  refine ⟨⟨by norm_num, by norm_num⟩, ?_⟩
  have h := (c7_nextRecurringDate_spec 15 ⟨2024, 2, 20⟩ (by norm_num) (by norm_num)).2
    (by decide)
  rw [h]
  decide

/-- Counterexample for C6 as frozen: a patch carrying an empty category
list together with one bill whose name is empty leaves the bill in the
bill array with no matching category, yet no category is synthesized —
the code skips bills with a falsy (empty) name. -/
theorem c6_counterexample :
    (applyBudgetUpdates initialState clearedCatsEmptyBillUpdates).budgetBills =
      [⟨"", "Unscheduled", 5, none⟩] ∧
    (applyBudgetUpdates initialState clearedCatsEmptyBillUpdates).budgetCategories = [] := by
  constructor
  · rfl
  · rfl

/-- C6 (amended): when a patch carries both a category array and a bill
array, every patch bill with a nonempty name and no case-insensitively
matching patch category gets the synthesized category (name, planned =
amount, actual = 0) appended, the patch categories are kept as given (as
a prefix), and the bill array is replaced wholesale so no bill is
dropped. -/
theorem c6_patch_merge_synthesizes (st : BudgetState) (u : BudgetUpdates)
    (cs : List CategoryPatch) (bs : List BillPatch)
    (hc : u.budgetCategories = some cs) (hb : u.budgetBills = some bs) :
    (applyBudgetUpdates st u).budgetBills = normalizeBills bs ∧
    (applyBudgetUpdates st u).budgetCategories.take (normalizeCategories cs).length =
      normalizeCategories cs ∧
    ∀ b ∈ normalizeBills bs, b.name ≠ "" →
      (∀ c ∈ normalizeCategories cs, lowerStr c.name ≠ lowerStr b.name) →
      (⟨b.name, b.amount, 0⟩ : BudgetCategory) ∈ (applyBudgetUpdates st u).budgetCategories := by
  refine ⟨applyBudgetUpdates_bills st u bs hb, ?_, ?_⟩
  · rw [applyBudgetUpdates_categories_both st u cs bs hc hb]
    exact mergeCategoriesWithBills_take ..
  · intro b hbmem hname hnomatch
    rw [applyBudgetUpdates_categories_both st u cs bs hc hb]
    exact mergeCategoriesWithBills_mem _ _ b hbmem hname hnomatch

/-- Witness for C6: a patch with an empty category list and one Phone
bill yields the synthesized Phone category. -/
theorem c6_patch_merge_witness :
    clearedCatsPhoneBillUpdates.budgetCategories = some [] ∧
    clearedCatsPhoneBillUpdates.budgetBills = some [phoneBillPatch] ∧
    (⟨"Phone", 80, 0⟩ : BudgetCategory) ∈
      (applyBudgetUpdates initialState clearedCatsPhoneBillUpdates).budgetCategories := by
  refine ⟨rfl, rfl, ?_⟩
  have h := (c6_patch_merge_synthesizes initialState clearedCatsPhoneBillUpdates []
    [phoneBillPatch] rfl rfl).2.2
  have hbmem : (⟨"Phone", "Unscheduled", 80, none⟩ : BudgetBill) ∈
      normalizeBills [phoneBillPatch] := by decide
  have hname : (⟨"Phone", "Unscheduled", 80, none⟩ : BudgetBill).name ≠ "" := by decide
  have hnomatch : ∀ c ∈ normalizeCategories [],
      lowerStr c.name ≠ lowerStr (⟨"Phone", "Unscheduled", 80, none⟩ : BudgetBill).name := by
    intro c hc
    simp [normalizeCategories] at hc
  exact h _ hbmem hname hnomatch

/-- Counterexample for C10 as frozen: a bills-only patch with one
empty-named bill that matches no current category synthesizes nothing —
the current categories are returned unchanged and no (empty, 5, 0)
category appears. -/
theorem c10_counterexample :
    (applyBudgetUpdates initialState emptyNameBillOnlyUpdates).budgetCategories =
      initialState.budgetCategories ∧
    ¬ ((⟨"", 5, 0⟩ : BudgetCategory) ∈
        (applyBudgetUpdates initialState emptyNameBillOnlyUpdates).budgetCategories) := by
  constructor
  · rfl
  · decide

/-- C10 (amended): when a patch carries a bill array but no category
array, synthesis runs against the current state — every incoming bill
with a nonempty name and no case-insensitively matching current category
is appended as (name, planned = amount, actual = 0), and the current
categories are kept unchanged as a prefix. -/
theorem c10_billsOnly_merge_synthesizes (st : BudgetState) (u : BudgetUpdates)
    (bs : List BillPatch)
    (hc : u.budgetCategories = none) (hb : u.budgetBills = some bs) :
    (applyBudgetUpdates st u).budgetBills = normalizeBills bs ∧
    (applyBudgetUpdates st u).budgetCategories.take st.budgetCategories.length =
      st.budgetCategories ∧
    ∀ b ∈ normalizeBills bs, b.name ≠ "" →
      (∀ c ∈ st.budgetCategories, lowerStr c.name ≠ lowerStr b.name) →
      (⟨b.name, b.amount, 0⟩ : BudgetCategory) ∈ (applyBudgetUpdates st u).budgetCategories := by
  refine ⟨applyBudgetUpdates_bills st u bs hb, ?_, ?_⟩
  · rw [applyBudgetUpdates_categories_billsOnly st u bs hc hb]
    exact mergeCategoriesWithBills_take ..
  · intro b hbmem hname hnomatch
    rw [applyBudgetUpdates_categories_billsOnly st u bs hc hb]
    exact mergeCategoriesWithBills_mem _ _ b hbmem hname hnomatch

/-- Witness for C10: a bills-only patch with one Internet bill against
the seeded initial state yields the synthesized Internet category. -/
theorem c10_billsOnly_merge_witness :
    internetBillOnlyUpdates.budgetCategories = none ∧
    internetBillOnlyUpdates.budgetBills = some [internetBillPatch] ∧
    (⟨"Internet", 60, 0⟩ : BudgetCategory) ∈
      (applyBudgetUpdates initialState internetBillOnlyUpdates).budgetCategories := by
  refine ⟨rfl, rfl, ?_⟩
  have h := (c10_billsOnly_merge_synthesizes initialState internetBillOnlyUpdates
    [internetBillPatch] rfl rfl).2.2
  have hbmem : (⟨"Internet", "Unscheduled", 60, none⟩ : BudgetBill) ∈
      normalizeBills [internetBillPatch] := by decide
  have hname : (⟨"Internet", "Unscheduled", 60, none⟩ : BudgetBill).name ≠ "" := by decide
  have hnomatch : ∀ c ∈ initialState.budgetCategories,
      lowerStr c.name ≠ lowerStr (⟨"Internet", "Unscheduled", 60, none⟩ : BudgetBill).name := by
    decide
  exact h _ hbmem hname hnomatch

end Centsy

